import Mathlib

/-!
Verification development for the Delta positions dashboard
(`pos_streamlit.py`).  The core under study is the Position Normalizer
(the per-refresh loop that turns raw exchange position/ticker records
into display rows) and the Alert Evaluator (`check_and_trigger_alerts`).

Modelling conventions:
* Python/JSON values are embedded as `PyVal`; numbers are exact
  rationals (the script's arithmetic is modelled exactly; IEEE-754
  rounding, `inf`/`nan` and the two-decimal display formatting are not
  modelled — every concrete input used below is exactly representable
  and round-trips through the `%.2f` formatting unchanged).
* Python `dict`s are association lists with `dict.get` returning
  `PyVal.none` for a missing key; `a or b` is `pyOr` (truthiness).
* Fallible Python code (`float(x)` under `try/except`) is modelled
  with `Except`/`Option`.
* External I/O (HTTP, Google Sheets, Telegram, Streamlit rendering) is
  out of scope per the spec; alert state is carried explicitly between
  refresh cycles, and the sheet round-trip is modelled as the identity.
-/

/-- Embedded Python/JSON value. -/
inductive PyVal where
  | none
  | bool (b : Bool)
  | num (q : ℚ)
  | str (s : String)
  | dict (d : List (String × PyVal))

/-- `v is None` in Python. -/
def PyVal.isNone : PyVal → Bool
  | PyVal.none => true
  | _ => false

/-- Python truthiness of an embedded value. -/
def PyVal.truthy : PyVal → Bool
  | PyVal.none => false
  | PyVal.bool b => b
  | PyVal.num q => !(q == 0)
  | PyVal.str s => !(s == "")
  | PyVal.dict [] => false
  | PyVal.dict (_ :: _) => true

/-- Python `a or b`: the first operand when truthy, otherwise the second. -/
def pyOr (a b : PyVal) : PyVal := if a.truthy then a else b

/-- Python `d.get(k)`: value of the key, `None` when absent. -/
def dictGet (d : List (String × PyVal)) (k : String) : PyVal :=
  match d.find? (fun kv => kv.1 == k) with
  | some kv => kv.2
  | Option.none => PyVal.none

/-- Value of a digit string, most significant digit first. -/
def digitsVal (l : List Char) : Nat :=
  l.foldl (fun a c => a * 10 + (c.toNat - 48)) 0

/-- Model of Python `float(s)` on a string: optional surrounding
whitespace, optional sign, then a plain decimal numeral
(`digits`, `digits.digits`, `digits.` or `.digits`).  Exponent
notation, underscores and `inf`/`nan` are outside the modelled value
domain (no value handled by the script uses them). -/
def strToRat (s : String) : Option ℚ :=
  let cs := ((s.data.dropWhile Char.isWhitespace).reverse.dropWhile
      Char.isWhitespace).reverse
  let sgnRest : ℤ × List Char :=
    match cs with
    | '+' :: t => (1, t)
    | '-' :: t => (-1, t)
    | _ => (1, cs)
  let sgn := sgnRest.1
  let body := sgnRest.2
  let ip := body.takeWhile Char.isDigit
  let rest := body.drop ip.length
  match rest with
  | [] =>
    if ip.isEmpty then Option.none
    else some ((sgn : ℚ) * (digitsVal ip : ℚ))
  | '.' :: frac =>
    if frac.all Char.isDigit && !(ip.isEmpty && frac.isEmpty) then
      some ((sgn : ℚ) *
        ((digitsVal ip : ℚ) + (digitsVal frac : ℚ) / ((10 : ℚ) ^ frac.length)))
    else Option.none
  | _ => Option.none

/-- Errors Python `float(x)` can raise on embedded values. -/
inductive PyErr where
  | typeError
  | valueError
deriving DecidableEq

/-- Model of the bare Python builtin `float(x)` on embedded values:
`TypeError` on `None`/`dict`, `ValueError` on a non-numeric string. -/
def pyFloat : PyVal → Except PyErr ℚ
  | PyVal.none => Except.error PyErr.typeError
  | PyVal.bool b => Except.ok (if b then 1 else 0)
  | PyVal.num q => Except.ok q
  | PyVal.str s =>
    match strToRat s with
    | some q => Except.ok q
    | Option.none => Except.error PyErr.valueError
  | PyVal.dict _ => Except.error PyErr.typeError

/-- `to_float(x)` from the source: `float(x)` under
`try/except (TypeError, ValueError): return None`. -/
def to_float (x : PyVal) : Option ℚ :=
  match pyFloat x with
  | Except.ok q => some q
  | Except.error PyErr.typeError => Option.none
  | Except.error PyErr.valueError => Option.none

/-- `w` occurs as a contiguous run of `s` starting at index `i`. -/
def listPrefixAt (w s : List Char) (i : Nat) : Bool :=
  (s.drop i).take w.length == w

/-- `w in s` on character lists. -/
def containsSubL (s w : List Char) : Bool :=
  (List.range (s.length + 1)).any (fun i => listPrefixAt w s i)

/-- Python `w in s` substring containment. -/
def containsSub (s w : String) : Bool := containsSubL s.data w.data

/-- Python `s.upper()`: character-wise upper-casing (the symbols and
field values handled by the script are ASCII). -/
def strUpper (s : String) : String := String.mk (s.data.map Char.toUpper)

/-- Regex word character (`\w`, ASCII). -/
def isWordChar (c : Char) : Bool := c.isAlphanum || c == '_'

/-- `\bW\b` matches `s` at index `i` (for a word `w` made of word
characters): `w` occurs at `i` with non-word characters or string ends
on both sides. -/
def boundedAt (s w : List Char) (i : Nat) : Bool :=
  listPrefixAt w s i
    && (i == 0 || !isWordChar (s.getD (i - 1) ' '))
    && !isWordChar (s.getD (i + w.length) ' ')

/-- `re.search(r"\b(BTC|ETH)\b", sym)`: leftmost word-bounded
occurrence of `BTC` or `ETH`, alternatives tried in order at each
position. -/
def findWordBounded (sym : String) : Option String :=
  let s := sym.data
  (List.range (s.length + 1)).findSome? (fun i =>
    if boundedAt s "BTC".data i then some "BTC"
    else if boundedAt s "ETH".data i then some "ETH"
    else Option.none)

/-- The repeated `if "BTC" in v: return "BTC"; if "ETH" in v: return
"ETH"` pattern of `detect_underlying`, applied to the uppercased
string. -/
def btcEthOfStr (s : String) : Option String :=
  let v := strUpper s
  if containsSub v "BTC" then some "BTC"
  else if containsSub v "ETH" then some "ETH"
  else Option.none

/-- `(v or "")` where a truthy value is expected to be a string (a
truthy non-string here would make the source raise on `.upper()`; the
modelled value domain keeps such fields strings or falsy). -/
def strOrEmpty (v : PyVal) : String :=
  match pyOr v (PyVal.str "") with
  | PyVal.str s => s
  | _ => ""

/-- Key list of the explicit-field loop in `detect_underlying`. -/
def underlyingKeys : List String :=
  ["underlying_symbol", "underlying", "base_asset_symbol",
   "settlement_asset_symbol"]

/-- Step (a) of `detect_underlying`: the `for key in (...)` loop over
explicit underlying-like fields, returning on the first string value
containing `BTC`/`ETH` (case-insensitively). -/
def fieldsStep (product : List (String × PyVal)) : Option String :=
  underlyingKeys.findSome? (fun k =>
    match dictGet product k with
    | PyVal.str s => btcEthOfStr s
    | _ => Option.none)

/-- Step (b) of `detect_underlying`: `spot = product.get("spot_index")
or {}`; when a dict, check its `symbol` string. -/
def spotStep (product : List (String × PyVal)) : Option String :=
  match pyOr (dictGet product "spot_index") (PyVal.dict []) with
  | PyVal.dict d => btcEthOfStr (strOrEmpty (dictGet d "symbol"))
  | _ => Option.none

/-- Step (c) of `detect_underlying`: regex word-boundary search on the
uppercased fallback symbol (`(fallback_symbol or "").upper()` is
`strUpper` since the model passes the symbol as a string). -/
def regexStep (sym : String) : Option String :=
  findWordBounded (strUpper sym)

/-- `detect_underlying(product, fallback_symbol)` from the source.
The source's `if not isinstance(product, dict): product = {}` guard is
carried by the caller (`positionProduct` below), which already yields
a dict.  Step (d), plain substring containment, is the same
`btcEthOfStr` check applied to the fallback symbol.  Nothing matching
returns Python `None`, embedded as `Option.none`. -/
def detect_underlying (product : List (String × PyVal))
    (fallback_symbol : String) : Option String :=
  match fieldsStep product with
  | some r => some r
  | Option.none =>
    match spotStep product with
    | some r => some r
    | Option.none =>
      match regexStep fallback_symbol with
      | some r => some r
      | Option.none => btcEthOfStr fallback_symbol

/-- The per-refresh `index_map`: at most a BTC and an ETH entry. -/
structure IndexMap where
  btc : Option ℚ
  eth : Option ℚ
deriving DecidableEq

/-- `index_map[u]` / `u in index_map` (the source only ever stores the
keys `"BTC"` and `"ETH"`). -/
def mapGet (m : IndexMap) (u : String) : Option ℚ :=
  if u == "BTC" then m.btc
  else if u == "ETH" then m.eth
  else Option.none

/-- The price decode of one ticker record:
`t.get("index_price") or t.get("spot_price") or
t.get("last_traded_price") or t.get("mark_price")`, then `to_float`. -/
def tickerPrice (t : List (String × PyVal)) : Option ℚ :=
  to_float (pyOr (dictGet t "index_price")
    (pyOr (dictGet t "spot_price")
      (pyOr (dictGet t "last_traded_price") (dictGet t "mark_price"))))

/-- One iteration of the `for t in tickers` loop building `index_map`:
skip when the decoded price is falsy (`if not price: continue`), else
record the first BTC/USD and ETH/USD symbols seen. -/
def indexMapStep (m : IndexMap) (t : List (String × PyVal)) : IndexMap :=
  let sym := strUpper (strOrEmpty (dictGet t "symbol"))
  match tickerPrice t with
  | Option.none => m
  | some q =>
    if q == 0 then m
    else
      let m1 := if containsSub sym "BTC" && containsSub sym "USD"
          && m.btc.isNone then { m with btc := some q } else m
      let m2 := if containsSub sym "ETH" && containsSub sym "USD"
          && m1.eth.isNone then { m1 with eth := some q } else m1
      m2

/-- `index_map` built from all ticker records, starting empty. -/
def buildIndexMap (tickers : List (List (String × PyVal))) : IndexMap :=
  tickers.foldl indexMapStep ⟨Option.none, Option.none⟩

/-- `if isinstance(index_price, dict): index_price =
index_price.get("index_price") or index_price.get("price")`. -/
def unwrapPriceObj (v : PyVal) : PyVal :=
  match v with
  | PyVal.dict d => pyOr (dictGet d "index_price") (dictGet d "price")
  | _ => v

/-- The index-price resolution statements of the position loop after
its first statement, as a function of the value `ip1` computed by that
statement: the nested-dict unwrap, the `spot_index` fallback guarded
by `index_price is None`, the `index_map` fallback guarded by
`index_price is None and underlying and underlying in index_map`, and
the final `to_float`. -/
def resolveIndexPriceFrom (m : IndexMap) (product : List (String × PyVal))
    (underlying : Option String) (ip1 : PyVal) : Option ℚ :=
  let ip2 := unwrapPriceObj ip1
  let ip3 :=
    if ip2.isNone then
      match dictGet product "spot_index" with
      | PyVal.dict sp =>
        pyOr (dictGet sp "index_price") (dictGet sp "spot_price")
      | _ => ip2
    else ip2
  let ip4 :=
    if ip3.isNone then
      match underlying with
      | some u =>
        if u == "" then ip3
        else
          match mapGet m u with
          | some q => PyVal.num q
          | Option.none => ip3
      | Option.none => ip3
    else ip3
  to_float ip4

/-- The full index-price resolution of the position loop: the first
statement `index_price = p.get("index_price") or
product.get("index_price")`, then the remaining statements. -/
def resolveIndexPrice (m : IndexMap) (p product : List (String × PyVal))
    (underlying : Option String) : Option ℚ :=
  resolveIndexPriceFrom m product underlying
    (pyOr (dictGet p "index_price") (dictGet product "index_price"))

/-- First element of an option chain, `PyVal.none` when all fail. -/
def optOfVal (v : PyVal) : Option PyVal :=
  if v.isNone then Option.none else some v

/-- Spec-literal resolver, following the spec's words for comparison
with the source's `resolveIndexPrice`: the resolved index price is the
FIRST NON-NULL value in the chain position-level field (unwrapping a
nested price object) → product-level field → spot-index sub-object's
`index_price`/`spot_price` → global per-underlying map. -/
def resolveIndexPriceFirstNonNull (m : IndexMap)
    (p product : List (String × PyVal)) (underlying : Option String) :
    Option ℚ :=
  let l1 := optOfVal (unwrapPriceObj (dictGet p "index_price"))
  let l2 := optOfVal (dictGet product "index_price")
  let l3 :=
    match dictGet product "spot_index" with
    | PyVal.dict sp =>
      match optOfVal (dictGet sp "index_price") with
      | some v => some v
      | Option.none => optOfVal (dictGet sp "spot_price")
    | _ => Option.none
  let l4 :=
    match underlying with
    | some u => (mapGet m u).map PyVal.num
    | Option.none => Option.none
  let chain :=
    match l1 with
    | some v => some v
    | Option.none =>
      match l2 with
      | some v => some v
      | Option.none =>
        match l3 with
        | some v => some v
        | Option.none => l4
  to_float (chain.getD PyVal.none)

/-- `lots_per_coin = {"BTC": 1000.0, "ETH": 100.0}.get(underlying, 1.0)`. -/
def lotsPerCoin (u : String) : ℚ :=
  if u == "BTC" then 1000 else if u == "ETH" then 100 else 1

/-- The `size_coins` computation: only under
`if size_lots is not None and underlying:` (a `None` or empty
underlying leaves `size_coins = None`). -/
def computeSizeCoins (size_lots : Option ℚ) (underlying : Option String) :
    Option ℚ :=
  match size_lots, underlying with
  | some sl, some u =>
    if u == "" then Option.none else some (sl / lotsPerCoin u)
  | _, _ => Option.none

/-- The `upnl_val` computation: only when entry price, mark price and
coin size are all present; short positions (`size_coins < 0`) use
`(entry - mark) * abs(size_coins)`, others `(mark - entry) *
abs(size_coins)`. -/
def computeUpnl (entry mark size_coins : Option ℚ) : Option ℚ :=
  match entry, mark, size_coins with
  | some e, some mk, some sc =>
    some (if sc < 0 then (e - mk) * |sc| else (mk - e) * |sc|)
  | _, _, _ => Option.none

/-- One normalized display row (values kept exact; the source stores
them as `%.2f`-formatted strings, which re-parse to the same number
for every value considered here). -/
structure Row where
  symbol : String
  size_lots : Option ℚ
  size_coins : Option ℚ
  entry_price : Option ℚ
  index_price : Option ℚ
  mark_price : Option ℚ
  upnl : Option ℚ
deriving DecidableEq

/-- `product = p.get("product") or {}` (a truthy non-dict product is
outside the modelled domain: the source would raise on `.get`). -/
def positionProduct (p : List (String × PyVal)) : List (String × PyVal) :=
  match pyOr (dictGet p "product") (PyVal.dict []) with
  | PyVal.dict d => d
  | _ => []

/-- `contract_symbol = product.get("symbol") or p.get("symbol") or ""`. -/
def positionSymbol (p : List (String × PyVal)) : String :=
  match pyOr (dictGet (positionProduct p) "symbol")
      (pyOr (dictGet p "symbol") (PyVal.str "")) with
  | PyVal.str s => s
  | _ => ""

/-- `underlying = detect_underlying(product, contract_symbol)`. -/
def positionUnderlying (p : List (String × PyVal)) : Option String :=
  detect_underlying (positionProduct p) (positionSymbol p)

/-- One iteration of the `for p in positions` loop: the derived row. -/
def processPosition (m : IndexMap) (p : List (String × PyVal)) : Row :=
  let product := positionProduct p
  let contract_symbol := positionSymbol p
  let size_lots := to_float (dictGet p "size")
  let underlying := positionUnderlying p
  let entry_price := to_float (dictGet p "entry_price")
  let mark_price := to_float (dictGet p "mark_price")
  let index_price := resolveIndexPrice m p product underlying
  let size_coins := computeSizeCoins size_lots underlying
  let upnl := computeUpnl entry_price mark_price size_coins
  { symbol := contract_symbol
    size_lots := size_lots
    size_coins := size_coins
    entry_price := entry_price
    index_price := index_price
    mark_price := mark_price
    upnl := upnl }

/-- The Position Normalizer: build `index_map` from the tickers, then
map the position loop over the raw position records. -/
def normalizePositions (positions tickers : List (List (String × PyVal))) :
    List Row :=
  positions.map (processPosition (buildIndexMap tickers))

/-- `total_upnl`: sum of the rows' non-null UPNL values (the source
iterates the sorted dataframe and skips falsy cells; the sort does not
change the sum, and a formatted `"0.00"` cell contributes zero either
way). -/
def totalUpnl (rows : List Row) : ℚ :=
  (rows.filterMap Row.upnl).sum

/-- One persisted alert rule (the sheet loader always fills every
column, so `status` is carried as a plain string). -/
structure AlertRule where
  symbol : String
  criteria : String
  condition : String
  threshold : ℚ
  status : String
  triggered_at : Option String
deriving DecidableEq

/-- `row.iloc[0].get(alert["criteria"])` followed by
`float(val_str)` under `try/except: continue`: the dataframe columns
hold `%.2f`-formatted strings or `None`; a `None` cell raises
`TypeError` and an unknown column yields `None`.  The `"Symbol"` cell
is a contract-symbol string, which `float` fails to parse. -/
def rowGet (r : Row) (c : String) : Option ℚ :=
  if c == "Size (lots)" then r.size_lots
  else if c == "Size (coins)" then r.size_coins
  else if c == "Entry Price" then r.entry_price
  else if c == "Index Price" then r.index_price
  else if c == "Mark Price" then r.mark_price
  else if c == "UPNL (USD)" then r.upnl
  else Option.none

/-- The uncaught pandas error the evaluator can raise: a column access
on a dataframe lacking that column is a `KeyError`. -/
inductive DfErr where
  | keyError (col : String)
deriving DecidableEq

deriving instance DecidableEq for Except

/-- `row = df[df["Symbol"] == symbol]` together with the `row.empty`
check.  `pd.DataFrame(rows)` has a `Symbol` column exactly when `rows`
is nonempty (every dict appended by the position loop carries the same
keys); on the column-less empty dataframe, `df["Symbol"]` raises
`KeyError('Symbol')`, which `check_and_trigger_alerts` does not catch.
Otherwise the first matching row is taken (`none` is the source's
`if row.empty: continue`). -/
def dfSymbolLookup (rows : List Row) (symbol : String) :
    Except DfErr (Option Row) :=
  match rows with
  | [] => Except.error (DfErr.keyError "Symbol")
  | r1 :: rt => Except.ok ((r1 :: rt).find? (fun r => r.symbol == symbol))

/-- Current-value resolution of `check_and_trigger_alerts`: the
`TOTAL_PNL` sentinel takes the supplied aggregate without touching the
dataframe; otherwise the `Symbol` column is filtered — raising
`KeyError` on the column-less empty dataframe — an empty filter result
skips the rule, and a matching row's criteria cell is coerced
(`float(val_str)` under `try/except`, modelled by `rowGet`). -/
def resolveCurrentValue (rows : List Row) (total : ℚ) (a : AlertRule) :
    Except DfErr (Option ℚ) :=
  if a.symbol == "TOTAL_PNL" then Except.ok (some total)
  else
    match dfSymbolLookup rows a.symbol with
    | Except.error e => Except.error e
    | Except.ok Option.none => Except.ok Option.none
    | Except.ok (some r) => Except.ok (rowGet r a.criteria)

/-- `condition_met`: `current_value >= threshold` for `">="`, else
(any other condition string) `current_value <= threshold`. -/
def conditionMet (cond : String) (v t : ℚ) : Bool :=
  if cond == ">=" then decide (t ≤ v) else decide (v ≤ t)

/-- One iteration of the alert loop in `check_and_trigger_alerts`:
skip non-`Active` rules (`if alert.get("status", "Active") !=
"Active": continue`), propagate an uncaught `KeyError` from the
dataframe lookup, skip rules whose value cannot be resolved, and on a
met condition notify and auto-deactivate (`status = "Triggered"`,
`triggered_at` stamped).  The result is the updated rule and the
notification payload (fired rule and current value; the message text
and Telegram/Streamlit delivery are external). -/
def stepAlert (rows : List Row) (total : ℚ) (now : String)
    (a : AlertRule) : Except DfErr (AlertRule × Option (AlertRule × ℚ)) :=
  if a.status == "Active" then
    match resolveCurrentValue rows total a with
    | Except.error e => Except.error e
    | Except.ok Option.none => Except.ok (a, Option.none)
    | Except.ok (some v) =>
      if conditionMet a.condition v a.threshold then
        let fired := { a with status := "Triggered", triggered_at := some now }
        Except.ok (fired, some (fired, v))
      else Except.ok (a, Option.none)
  else Except.ok (a, Option.none)

/-- `check_and_trigger_alerts(df, total_upnl)`: the rules are visited
in order; on success the updated rule list and the notifications
emitted this cycle are returned (the source mutates
`st.session_state.alerts` in place and returns the count — the length
of the second component).  The first uncaught `KeyError` aborts the
loop and propagates out of the function; rules visited before the
raise were already mutated and notified in the source, but no claim
below inspects that partial state. -/
def checkAndTriggerAlerts (rows : List Row) (total : ℚ) (now : String)
    (alerts : List AlertRule) :
    Except DfErr (List AlertRule × List (AlertRule × ℚ)) :=
  match alerts with
  | [] => Except.ok ([], [])
  | a :: t =>
    match stepAlert rows total now a with
    | Except.error e => Except.error e
    | Except.ok out =>
      match checkAndTriggerAlerts rows total now t with
      | Except.error e => Except.error e
      | Except.ok rest =>
        Except.ok (out.1 :: rest.1,
          match out.2 with
          | some n => n :: rest.2
          | Option.none => rest.2)

/-- The per-refresh driver, iterated over successive cycles: each
cycle recomputes `total_upnl` from its rows and runs the evaluator;
the rule list persists between cycles (sheet write-then-reload
modelled as the identity; the timestamp string is irrelevant to the
claims).  On success it returns the final rule list and the per-cycle
notification counts; an uncaught error aborts the run as it aborts the
script's refresh. -/
def runCycles (cycles : List (List Row)) (alerts : List AlertRule) :
    Except DfErr (List AlertRule × List Nat) :=
  match cycles with
  | [] => Except.ok (alerts, [])
  | rows :: rest =>
    match checkAndTriggerAlerts rows (totalUpnl rows) "t" alerts with
    | Except.error e => Except.error e
    | Except.ok out =>
      match runCycles rest out.1 with
      | Except.error e => Except.error e
      | Except.ok next => Except.ok (next.1, out.2.length :: next.2)

/-- `sign(x)` as used in the spec's P&L formula. -/
def qsign (q : ℚ) : ℚ := if q < 0 then -1 else if q = 0 then 0 else 1

/-- Empty per-refresh index map. -/
def imEmpty : IndexMap := ⟨Option.none, Option.none⟩

/-- Index map holding only `BTC → 65000` (the spec's fallback example). -/
def imBTC : IndexMap := ⟨some 65000, Option.none⟩

/-- Raw short position: entry 100, mark 90, size −2000 lots of a BTC
contract (−2000 / 1000 = −2 coins). -/
def pShort : List (String × PyVal) :=
  [("size", PyVal.num (-2000)), ("entry_price", PyVal.num 100),
   ("mark_price", PyVal.num 90),
   ("product", PyVal.dict [("symbol", PyVal.str "BTCUSD")])]

/-- Raw long position: entry 100, mark 110, size 2000 lots (2 coins). -/
def pLong : List (String × PyVal) :=
  [("size", PyVal.num 2000), ("entry_price", PyVal.num 100),
   ("mark_price", PyVal.num 110),
   ("product", PyVal.dict [("symbol", PyVal.str "BTCUSD")])]

/-- Raw position with a size but an unrecognized underlying. -/
def pSol : List (String × PyVal) :=
  [("size", PyVal.num 5), ("symbol", PyVal.str "SOLUSD")]

/-- Raw position missing `entry_price`. -/
def pMissingEntry : List (String × PyVal) :=
  [("mark_price", PyVal.num 90), ("size", PyVal.num 5)]

/-- Raw position whose position-level `index_price` is the non-null
falsy value 0. -/
def pC6 : List (String × PyVal) := [("index_price", PyVal.num 0)]

/-- Product record carrying `index_price = 50`. -/
def prodC6 : List (String × PyVal) := [("index_price", PyVal.num 50)]

/-- Raw BTC position with no index-price source of its own. -/
def pBtcRow : List (String × PyVal) :=
  [("product", PyVal.dict [("symbol", PyVal.str "BTCUSD")])]

/-- A normalized row carrying only a symbol and a mark price. -/
def markRow (q : ℚ) : Row :=
  { symbol := "BTCUSD", size_lots := Option.none, size_coins := Option.none,
    entry_price := Option.none, index_price := Option.none,
    mark_price := some q, upnl := Option.none }

/-- The spec's example rule: mark price of BTCUSD at least 100
(the spec's abstract field name `mark_price` is the source's dataframe
column `"Mark Price"`). -/
def ruleBTC : AlertRule :=
  { symbol := "BTCUSD", criteria := "Mark Price", condition := ">=",
    threshold := 100, status := "Active", triggered_at := Option.none }

/-- `ruleBTC` after it has fired at time `"t"`. -/
def ruleBTCFired : AlertRule :=
  { symbol := "BTCUSD", criteria := "Mark Price", condition := ">=",
    threshold := 100, status := "Triggered", triggered_at := some "t" }

/-- An already-triggered copy of the example rule. -/
def ruleTriggered : AlertRule :=
  { symbol := "BTCUSD", criteria := "Mark Price", condition := ">=",
    threshold := 100, status := "Triggered", triggered_at := Option.none }

/-- A rule with the invalid condition string `">"`. -/
def ruleGT : AlertRule :=
  { symbol := "BTCUSD", criteria := "Mark Price", condition := ">",
    threshold := 100, status := "Active", triggered_at := Option.none }

/-- An aggregate-P&L rule satisfied by a zero total. -/
def totalRule : AlertRule :=
  { symbol := "TOTAL_PNL", criteria := "Total P&L", condition := "<=",
    threshold := 5, status := "Active", triggered_at := Option.none }

/-- `totalRule` after it has fired at time `"t"`. -/
def totalRuleFired : AlertRule :=
  { symbol := "TOTAL_PNL", criteria := "Total P&L", condition := "<=",
    threshold := 5, status := "Triggered", triggered_at := some "t" }

/-! ### Helper lemmas -/

theorem btcEthOfStr_cases (s : String) :
    btcEthOfStr s = some "BTC" ∨ btcEthOfStr s = some "ETH" ∨
      btcEthOfStr s = Option.none := by
  simp only [btcEthOfStr]
  split_ifs
  · exact Or.inl rfl
  · exact Or.inr (Or.inl rfl)
  · exact Or.inr (Or.inr rfl)

theorem findSome_btceth {α : Type} (l : List α) (f : α → Option String)
    (h : ∀ x, f x = some "BTC" ∨ f x = some "ETH" ∨ f x = Option.none) :
    l.findSome? f = some "BTC" ∨ l.findSome? f = some "ETH" ∨
      l.findSome? f = Option.none := by
  induction l with
  | nil => exact Or.inr (Or.inr rfl)
  | cons a t ih =>
    rw [List.findSome?_cons]
    rcases h a with h1 | h1 | h1 <;> rw [h1]
    · exact Or.inl rfl
    · exact Or.inr (Or.inl rfl)
    · exact ih

theorem fieldsStep_cases (pr : List (String × PyVal)) :
    fieldsStep pr = some "BTC" ∨ fieldsStep pr = some "ETH" ∨
      fieldsStep pr = Option.none := by
  refine findSome_btceth _ _ (fun k => ?_)
  cases dictGet pr k with
  | str s => exact btcEthOfStr_cases s
  | none => exact Or.inr (Or.inr rfl)
  | bool b => exact Or.inr (Or.inr rfl)
  | num q => exact Or.inr (Or.inr rfl)
  | dict d => exact Or.inr (Or.inr rfl)

theorem spotStep_cases (pr : List (String × PyVal)) :
    spotStep pr = some "BTC" ∨ spotStep pr = some "ETH" ∨
      spotStep pr = Option.none := by
  unfold spotStep
  cases pyOr (dictGet pr "spot_index") (PyVal.dict []) with
  | dict d => exact btcEthOfStr_cases _
  | none => exact Or.inr (Or.inr rfl)
  | bool b => exact Or.inr (Or.inr rfl)
  | num q => exact Or.inr (Or.inr rfl)
  | str s => exact Or.inr (Or.inr rfl)

theorem regexStep_cases (s : String) :
    regexStep s = some "BTC" ∨ regexStep s = some "ETH" ∨
      regexStep s = Option.none := by
  unfold regexStep findWordBounded
  refine findSome_btceth _ _ (fun i => ?_)
  split_ifs
  · exact Or.inl rfl
  · exact Or.inr (Or.inl rfl)
  · exact Or.inr (Or.inr rfl)

theorem detect_underlying_cases (pr : List (String × PyVal)) (s : String) :
    detect_underlying pr s = some "BTC" ∨ detect_underlying pr s = some "ETH" ∨
      detect_underlying pr s = Option.none := by
  unfold detect_underlying
  rcases fieldsStep_cases pr with h | h | h <;> rw [h]
  · exact Or.inl rfl
  · exact Or.inr (Or.inl rfl)
  rcases spotStep_cases pr with h2 | h2 | h2 <;> rw [h2]
  · exact Or.inl rfl
  · exact Or.inr (Or.inl rfl)
  rcases regexStep_cases s with h3 | h3 | h3 <;> rw [h3]
  · exact Or.inl rfl
  · exact Or.inr (Or.inl rfl)
  exact btcEthOfStr_cases s

theorem conditionMet_of_ne (c : String) (v t : ℚ) (h : c ≠ ">=") :
    conditionMet c v t = decide (v ≤ t) := by
  unfold conditionMet
  rw [if_neg]
  simpa using h

/-! ### Claims -/

/-- C1.  For every position record whose derived row has non-null
entry price, mark price and coin size, the Normalizer's unrealized
P&L equals `(mark_price − entry_price) × |size_coins| ×
sign(size_coins)`: a long profits when mark > entry, a short when
mark < entry. -/
theorem C1_upnl_sign_formula (m : IndexMap) (p : List (String × PyVal))
    (e mk sc : ℚ)
    (h1 : (processPosition m p).entry_price = some e)
    (h2 : (processPosition m p).mark_price = some mk)
    (h3 : (processPosition m p).size_coins = some sc) :
    (processPosition m p).upnl = some ((mk - e) * |sc| * qsign sc) := by
  have hu : (processPosition m p).upnl
      = computeUpnl (processPosition m p).entry_price
        (processPosition m p).mark_price (processPosition m p).size_coins := rfl
  rw [hu, h1, h2, h3]
  simp only [computeUpnl]
  rcases lt_trichotomy sc 0 with h | h | h
  · rw [if_pos h]
    unfold qsign
    rw [if_pos h]
    congr 1
    ring
  · subst h
    simp [qsign, lt_self_iff_false, abs_zero]
  · rw [if_neg (not_lt.mpr h.le)]
    unfold qsign
    rw [if_neg (not_lt.mpr h.le), if_neg (ne_of_gt h)]
    congr 1
    ring

/-- Witness for C1: the spec's short example (entry 100, mark 90,
−2 coins) yields UPNL 20, and its long example (entry 100, mark 110,
2 coins) also yields 20. -/
theorem C1_upnl_sign_formula_witness :
    (processPosition imEmpty pShort).upnl = some 20 ∧
      (processPosition imEmpty pLong).upnl = some 20 := by
  constructor
  · have h3 : (processPosition imEmpty pShort).size_coins = some (-2 : ℚ) := by
      have h0 : (processPosition imEmpty pShort).size_coins
          = computeSizeCoins (to_float (dictGet pShort "size"))
            (positionUnderlying pShort) := rfl
      rw [h0, show to_float (dictGet pShort "size") = some (-2000 : ℚ) from
          by decide,
        show positionUnderlying pShort = some "BTC" from by decide]
      simp only [computeSizeCoins]
      rw [if_neg (by decide), show lotsPerCoin "BTC" = 1000 from by decide]
      norm_num
    have h := C1_upnl_sign_formula imEmpty pShort 100 90 (-2)
      (by decide) (by decide) h3
    rw [h]
    norm_num [qsign]
  · have h3 : (processPosition imEmpty pLong).size_coins = some (2 : ℚ) := by
      have h0 : (processPosition imEmpty pLong).size_coins
          = computeSizeCoins (to_float (dictGet pLong "size"))
            (positionUnderlying pLong) := rfl
      rw [h0, show to_float (dictGet pLong "size") = some (2000 : ℚ) from
          by decide,
        show positionUnderlying pLong = some "BTC" from by decide]
      simp only [computeSizeCoins]
      rw [if_neg (by decide), show lotsPerCoin "BTC" = 1000 from by decide]
      norm_num
    have h := C1_upnl_sign_formula imEmpty pLong 100 110 2
      (by decide) (by decide) h3
    rw [h]
    norm_num [qsign]

/-- C3.  For rule `{symbol: BTCUSD, criteria: mark_price, condition:
>=, threshold: 100}` over three cycles with mark prices 90, 105, 105,
exactly one notification is emitted in total, at the second cycle
(the rule auto-deactivates on firing, so the third cycle is silent). -/
theorem C3_dedup_single_notification :
    runCycles [[markRow 90], [markRow 105], [markRow 105]] [ruleBTC]
        = Except.ok ([ruleBTCFired], [0, 1, 0]) ∧
      ([0, 1, 0] : List Nat).sum = 1 := by
  decide

/-- C9.  The safe-float helper `to_float` is total: every error
`float` raises on an embedded value is caught and mapped to null,
numbers and booleans map to their value, a parseable numeric string
maps to its value, and non-numeric strings, `None` and dicts map to
null. -/
theorem C9_to_float_total :
    (∀ v e, pyFloat v = Except.error e → to_float v = Option.none) ∧
    (∀ q, to_float (PyVal.num q) = some q) ∧
    (∀ b, to_float (PyVal.bool b) = some (if b then 1 else 0)) ∧
    (∀ s q, strToRat s = some q → to_float (PyVal.str s) = some q) ∧
    (∀ s, strToRat s = Option.none → to_float (PyVal.str s) = Option.none) ∧
    (to_float PyVal.none = Option.none) ∧
    (∀ d, to_float (PyVal.dict d) = Option.none) := by
  refine ⟨?_, fun q => rfl, fun b => rfl, ?_, ?_, rfl, fun d => rfl⟩
  · intro v e h
    unfold to_float
    rw [h]
    cases e <;> rfl
  · intro s q h
    simp only [to_float, pyFloat, h]
  · intro s h
    simp only [to_float, pyFloat, h]

/-- Witness for C9: `"12.5"` parses to 25/2, `"abc"` coerces to null. -/
theorem C9_to_float_total_witness :
    to_float (PyVal.str "12.5") = some (25 / 2) ∧
      to_float (PyVal.str "abc") = Option.none := by
  constructor
  · have h : strToRat "12.5" = some (25 / 2) := by
      have h0 : strToRat "12.5"
          = some (((1 : ℤ) : ℚ) * ((digitsVal ['1', '2'] : ℚ)
            + (digitsVal ['5'] : ℚ) / (10 : ℚ) ^ (['5'] : List Char).length)) :=
        rfl
      rw [h0, show digitsVal ['1', '2'] = 12 from by decide,
        show digitsVal ['5'] = 5 from by decide]
      norm_num
    exact C9_to_float_total.2.2.2.1 "12.5" (25 / 2) h
  · exact C9_to_float_total.2.2.2.2.1 "abc" (by decide)

/-- C10.  Any condition string other than `">="` — e.g. `">"` or an
empty string loaded from the sheet — is compared as `"<="`: an Active
rule whose value resolves fires exactly when the value is at most the
threshold. -/
theorem C10_non_ge_condition_le :
    (∀ c (v t : ℚ), c ≠ ">=" → conditionMet c v t = decide (v ≤ t)) ∧
    (∀ rows total now a v, a.status = "Active" → a.condition ≠ ">=" →
      resolveCurrentValue rows total a = Except.ok (some v) →
      ((∃ a2 n, stepAlert rows total now a = Except.ok (a2, some n)) ↔
        v ≤ a.threshold)) := by
  refine ⟨fun c v t h => conditionMet_of_ne c v t h, ?_⟩
  intro rows total now a v hs hc hv
  have hcm := conditionMet_of_ne a.condition v a.threshold hc
  by_cases hle : v ≤ a.threshold <;>
    simp [stepAlert, hs, hv, hcm, hle]

/-- Witness for C10: condition `">"` with value 90 and threshold 100
fires (90 ≤ 100), behaving as `"<="`. -/
theorem C10_non_ge_condition_le_witness :
    conditionMet ">" 90 100 = decide ((90 : ℚ) ≤ 100) ∧
      ((∃ a2 n, stepAlert [markRow 90] 0 "t" ruleGT = Except.ok (a2, some n)) ↔
        (90 : ℚ) ≤ ruleGT.threshold) :=
  ⟨C10_non_ge_condition_le.1 ">" 90 100 (by decide),
    C10_non_ge_condition_le.2 [markRow 90] 0 "t" ruleGT 90 rfl (by decide)
      (by decide)⟩

/-- Counterexample to C2 as stated: with mark prices 90, 105, 90, 105
over four cycles, the second false-to-true transition (cycle 4) fires
NO second notification — the rule was auto-deactivated at cycle 2 and
only one notification is ever sent without manual reactivation. -/
theorem C2_no_second_firing_cx :
    runCycles [[markRow 90], [markRow 105], [markRow 90], [markRow 105]]
        [ruleBTC] = Except.ok ([ruleBTCFired], [0, 1, 0, 0]) ∧
      ([0, 1, 0, 0] : List Nat).sum = 1 := by
  decide

/-- C2 (amended).  The evaluator is one-shot, not edge-triggered: on
firing, a rule's status is set to `Triggered` (auto-deactivation), and
a `Triggered` rule is skipped on every later cycle — it never fires
again on a later false-to-true transition unless manually
reactivated. -/
theorem C2_auto_deactivate_no_rearm :
    (∀ rows total now a a2 fired,
      stepAlert rows total now a = Except.ok (a2, some fired) →
      a2.status = "Triggered" ∧ fired.1 = a2) ∧
    (∀ cycles (a : AlertRule), a.status = "Triggered" →
      runCycles cycles [a] = Except.ok ([a], cycles.map (fun _ => 0))) := by
  constructor
  · intro rows total now a a2 fired h
    by_cases hs : (a.status == "Active") = true
    · cases hv : resolveCurrentValue rows total a with
      | error e => simp [stepAlert, hs, hv] at h
      | ok o =>
        cases o with
        | none => simp [stepAlert, hs, hv] at h
        | some v =>
          by_cases hc : conditionMet a.condition v a.threshold = true
          · simp [stepAlert, hs, hv, hc] at h
            obtain ⟨h1, h2⟩ := h
            subst h1
            subst h2
            exact ⟨rfl, rfl⟩
          · simp [stepAlert, hs, hv, hc] at h
    · simp [stepAlert, hs] at h
  · intro cycles a ha
    have hne : ¬ (a.status == "Active") = true := by
      rw [ha]
      decide
    have hstep : ∀ rows total now, stepAlert rows total now a
        = Except.ok (a, Option.none) := by
      intro rows total now
      unfold stepAlert
      rw [if_neg hne]
    induction cycles with
    | nil => rfl
    | cons c rest ih =>
      have hout : checkAndTriggerAlerts c (totalUpnl c) "t" [a]
          = Except.ok ([a], []) := by
        simp [checkAndTriggerAlerts, hstep]
      simp [runCycles, hout, ih]

/-- Witness for C2 (amended): a firing sets status `Triggered`, and a
`Triggered` rule stays silent through a false-then-true mark-price
sequence. -/
theorem C2_auto_deactivate_no_rearm_witness :
    (ruleBTCFired.status = "Triggered" ∧
      (ruleBTCFired, (105 : ℚ)).1 = ruleBTCFired) ∧
      runCycles [[markRow 90], [markRow 105]] [ruleTriggered]
        = Except.ok ([ruleTriggered], [0, 0]) :=
  ⟨C2_auto_deactivate_no_rearm.1 [markRow 105] 0 "t" ruleBTC ruleBTCFired
      (ruleBTCFired, 105) (by decide),
    C2_auto_deactivate_no_rearm.2 [[markRow 90], [markRow 105]] ruleTriggered
      rfl⟩

/-- Counterexample to C4 as stated: a position with size 5 and the
unrecognized underlying symbol `SOLUSD` gets `size_coins = null`, not
`size_coins = size_lots = 5` — the guard `if size_lots is not None and
underlying:` skips the conversion when `detect_underlying` returned
`None`, so the lookup table's default 1.0 is never reached. -/
theorem C4_unknown_underlying_cx :
    (processPosition imEmpty pSol).size_lots = some 5 ∧
      (processPosition imEmpty pSol).size_coins = Option.none := by
  decide

/-- C4 (amended).  `size_coins = size_lots / lots_per_coin(underlying)`
is computed only when the underlying is recognized (`detect_underlying`
only ever yields `BTC`, `ETH` or null): BTC divides by 1000, ETH by
100, a null size or null underlying leaves `size_coins` null. -/
theorem C4_size_coins_amended :
    (∀ m p, (processPosition m p).size_coins
        = computeSizeCoins (to_float (dictGet p "size"))
          (positionUnderlying p)) ∧
    (∀ sl : ℚ, computeSizeCoins (some sl) (some "BTC") = some (sl / 1000)) ∧
    (∀ sl : ℚ, computeSizeCoins (some sl) (some "ETH") = some (sl / 100)) ∧
    (∀ sl : ℚ, computeSizeCoins (some sl) Option.none = Option.none) ∧
    (∀ u, computeSizeCoins Option.none u = Option.none) ∧
    (∀ pr s, detect_underlying pr s = some "BTC" ∨
      detect_underlying pr s = some "ETH" ∨
      detect_underlying pr s = Option.none) := by
  refine ⟨fun m p => rfl, fun sl => ?_, fun sl => ?_, fun sl => rfl,
    fun u => ?_, detect_underlying_cases⟩
  · simp only [computeSizeCoins]
    rw [if_neg (by decide), show lotsPerCoin "BTC" = 1000 from by decide]
  · simp only [computeSizeCoins]
    rw [if_neg (by decide), show lotsPerCoin "ETH" = 100 from by decide]
  · cases u <;> rfl

/-- Counterexample to C5 as stated: on a product and symbol with no
BTC/ETH anywhere, `detect_underlying` returns Python `None` (embedded
`Option.none`), not the string value `"unknown"`. -/
theorem C5_returns_null_not_unknown_cx :
    detect_underlying [] "SOLUSD" = Option.none ∧
      detect_underlying [] "SOLUSD" ≠ some "unknown" := by
  decide

/-- C5 (amended).  Underlying detection is the ordered chain (a)
explicit underlying-like fields, (b) spot-index symbol, (c) regex
word-boundary match on the contract symbol, (d) plain substring match
— first match wins — and returns null (not `"unknown"`) when nothing
matches; `"C-BTC-120800-110825"` with no explicit field resolves to
`"BTC"`, and does so through the regex step. -/
theorem C5_detection_chain_amended :
    (∀ pr s, detect_underlying pr s
        = (fieldsStep pr).orElse (fun _ => (spotStep pr).orElse (fun _ =>
            (regexStep s).orElse (fun _ => btcEthOfStr s)))) ∧
      regexStep "C-BTC-120800-110825" = some "BTC" ∧
      fieldsStep [] = Option.none ∧ spotStep [] = Option.none ∧
      detect_underlying [] "C-BTC-120800-110825" = some "BTC" := by
  refine ⟨?_, by decide, by decide, by decide, by decide⟩
  intro pr s
  unfold detect_underlying Option.orElse
  cases fieldsStep pr <;> cases spotStep pr <;> cases regexStep s <;> rfl

/-- Counterexample to C6 as stated: with a position-level
`index_price` of 0 (non-null) and a product-level `index_price` of 50,
the source resolves 50 — the first two links are combined with a
truthiness `or`, so the non-null 0 falls through — while the spec's
first-non-null chain would resolve 0. -/
theorem C6_first_nonnull_cx :
    resolveIndexPrice imEmpty pC6 prodC6 Option.none = some 50 ∧
      resolveIndexPriceFirstNonNull imEmpty pC6 prodC6 Option.none
        = some 0 := by
  decide

/-- C6 (amended).  The chain is as stated except that the
position-level link is taken by truthiness, not non-nullness: a falsy
position-level `index_price` (null, zero, empty) is ignored exactly as
if absent; and when position, product and spot sources yield nothing,
the per-underlying ticker map supplies the value (BTC row resolving
65000 from the map). -/
theorem C6_index_fallback_amended :
    (∀ m p product u, PyVal.truthy (dictGet p "index_price") = false →
      resolveIndexPrice m p product u = resolveIndexPrice m [] product u) ∧
      (processPosition imBTC pBtcRow).index_price = some 65000 := by
  refine ⟨?_, by decide⟩
  intro m p product u h
  unfold resolveIndexPrice
  refine congrArg (resolveIndexPriceFrom m product u) ?_
  unfold pyOr
  rw [h, show dictGet [] "index_price" = PyVal.none from rfl,
    show PyVal.truthy PyVal.none = false from rfl]
  simp

/-- Witness for C6 (amended): the falsy-fallthrough clause applied at
the zero-valued position-level field. -/
theorem C6_index_fallback_amended_witness :
    resolveIndexPrice imEmpty pC6 prodC6 Option.none
      = resolveIndexPrice imEmpty [] prodC6 Option.none :=
  C6_index_fallback_amended.1 imEmpty pC6 prodC6 Option.none (by decide)

/-- C7.  The Normalizer produces one row per raw position record, and
any record missing `entry_price`, `mark_price` or `size` yields a row
with a null UPNL — no exception, no zero substituted into the P&L. -/
theorem C7_missing_inputs_null_upnl :
    (∀ positions tickers,
      (normalizePositions positions tickers).length = positions.length) ∧
    (∀ m p, (dictGet p "entry_price" = PyVal.none ∨
        dictGet p "mark_price" = PyVal.none ∨ dictGet p "size" = PyVal.none) →
      (processPosition m p).upnl = Option.none) := by
  constructor
  · intro positions tickers
    simp [normalizePositions]
  · intro m p h
    have hu : (processPosition m p).upnl
        = computeUpnl (to_float (dictGet p "entry_price"))
          (to_float (dictGet p "mark_price"))
          (computeSizeCoins (to_float (dictGet p "size"))
            (positionUnderlying p)) := rfl
    rcases h with h | h | h <;> rw [hu, h]
    · cases to_float (dictGet p "mark_price") <;>
        cases computeSizeCoins (to_float (dictGet p "size"))
          (positionUnderlying p) <;> rfl
    · cases to_float (dictGet p "entry_price") <;>
        cases computeSizeCoins (to_float (dictGet p "size"))
          (positionUnderlying p) <;> rfl
    · cases to_float (dictGet p "entry_price") <;>
        cases to_float (dictGet p "mark_price") <;>
        cases positionUnderlying p <;> rfl

/-- Witness for C7: a record with mark price and size but no entry
price still yields a row, with null UPNL. -/
theorem C7_missing_inputs_null_upnl_witness :
    (processPosition imEmpty pMissingEntry).upnl = Option.none :=
  C7_missing_inputs_null_upnl.2 imEmpty pMissingEntry (Or.inl rfl)

/-- Counterexample to C8 as stated: called with an empty row list (and
the total the source would compute from it), an Active `TOTAL_PNL`
rule whose condition holds still fires — one notification is emitted
and the rule is flipped to `Triggered`, so the result is neither "no
notifications" nor "the rule list unchanged". -/
theorem C8_empty_rows_total_rule_cx :
    checkAndTriggerAlerts [] (totalUpnl []) "t" [totalRule]
      = Except.ok ([totalRuleFired], [(totalRuleFired, 0)]) := by
  decide

theorem dfSymbolLookup_error (rows : List Row) (s : String) (e : DfErr)
    (h : dfSymbolLookup rows s = Except.error e) :
    e = DfErr.keyError "Symbol" := by
  cases rows with
  | nil =>
    have h2 : (Except.error (DfErr.keyError "Symbol")
        : Except DfErr (Option Row)) = Except.error e := h
    injection h2 with h3
    exact h3.symm
  | cons r1 rt =>
    have h2 : (Except.ok ((r1 :: rt).find? (fun r => r.symbol == s))
        : Except DfErr (Option Row)) = Except.error e := h
    exact Except.noConfusion h2

theorem resolveCurrentValue_error (rows : List Row) (total : ℚ)
    (a : AlertRule) (e : DfErr)
    (h : resolveCurrentValue rows total a = Except.error e) :
    e = DfErr.keyError "Symbol" := by
  unfold resolveCurrentValue at h
  split at h
  · exact Except.noConfusion h
  · split at h
    · rename_i e2 heq
      injection h with h3
      exact h3 ▸ dfSymbolLookup_error rows a.symbol e2 heq
    · exact Except.noConfusion h
    · exact Except.noConfusion h

theorem stepAlert_error (rows : List Row) (total : ℚ) (now : String)
    (a : AlertRule) (e : DfErr)
    (h : stepAlert rows total now a = Except.error e) :
    e = DfErr.keyError "Symbol" := by
  unfold stepAlert at h
  split at h
  · split at h
    · rename_i e2 heq
      injection h with h3
      exact h3 ▸ resolveCurrentValue_error rows total a e2 heq
    · exact Except.noConfusion h
    · split at h
      · exact Except.noConfusion h
      · exact Except.noConfusion h
  · exact Except.noConfusion h

theorem stepAlert_empty_keyerror (total : ℚ) (now : String) (a : AlertRule)
    (hs : a.status = "Active") (hsym : a.symbol ≠ "TOTAL_PNL") :
    stepAlert [] total now a = Except.error (DfErr.keyError "Symbol") := by
  unfold stepAlert resolveCurrentValue dfSymbolLookup
  rw [if_pos (by simp [hs]), if_neg (by simpa using hsym)]

theorem stepAlert_skip_inactive (rows : List Row) (total : ℚ) (now : String)
    (a : AlertRule) (hs : a.status ≠ "Active") :
    stepAlert rows total now a = Except.ok (a, Option.none) := by
  unfold stepAlert
  rw [if_neg (by simpa using hs)]

/-- C8 (amended).  The Normalizer on empty inputs returns no rows, and
the evaluator on an empty rule list returns no notifications and an
unchanged (empty) rule list.  But the evaluator does NOT tolerate an
empty row list: the empty dataframe has no `Symbol` column, so any
Active rule with a non-`TOTAL_PNL` symbol makes it raise an uncaught
`KeyError('Symbol')` rather than skip; an Active `TOTAL_PNL` rule can
still fire against the supplied total; only rules that are all
non-Active are skipped, leaving the list unchanged. -/
theorem C8_empty_inputs_amended :
    normalizePositions [] [] = [] ∧
    (∀ rows total now,
      checkAndTriggerAlerts rows total now [] = Except.ok ([], [])) ∧
    (∀ total now alerts a, a ∈ alerts → a.status = "Active" →
      a.symbol ≠ "TOTAL_PNL" →
      checkAndTriggerAlerts [] total now alerts
        = Except.error (DfErr.keyError "Symbol")) ∧
    (∀ total now alerts, (∀ a, a ∈ alerts → a.status ≠ "Active") →
      checkAndTriggerAlerts [] total now alerts = Except.ok (alerts, [])) := by
  refine ⟨rfl, fun rows total now => rfl, ?_, ?_⟩
  · intro total now alerts a
    induction alerts with
    | nil =>
      intro ha
      cases ha
    | cons b t ih =>
      intro ha hs hsym
      rcases List.mem_cons.mp ha with h1 | h1
      · subst h1
        simp only [checkAndTriggerAlerts,
          stepAlert_empty_keyerror total now a hs hsym]
      · cases hb : stepAlert [] total now b with
        | error e =>
          simp only [checkAndTriggerAlerts, hb,
            stepAlert_error [] total now b e hb]
        | ok out =>
          simp only [checkAndTriggerAlerts, hb, ih h1 hs hsym]
  · intro total now alerts h
    induction alerts with
    | nil => rfl
    | cons b t ih =>
      have hb := stepAlert_skip_inactive [] total now b
        (h b (List.mem_cons_self b t))
      have iht := ih (fun x hx => h x (List.mem_cons_of_mem b hx))
      simp only [checkAndTriggerAlerts, hb, iht]

/-- Witness for C8 (amended): an Active symbol-specific rule against
an empty row list raises `KeyError('Symbol')`, and an all-non-Active
rule list is returned unchanged with no notification. -/
theorem C8_empty_inputs_amended_witness :
    checkAndTriggerAlerts [] 0 "t" [ruleBTC]
        = Except.error (DfErr.keyError "Symbol") ∧
      checkAndTriggerAlerts [] 0 "t" [ruleTriggered]
        = Except.ok ([ruleTriggered], []) :=
  ⟨C8_empty_inputs_amended.2.2.1 0 "t" [ruleBTC] ruleBTC
      (List.mem_cons_self ruleBTC []) rfl (by decide),
    C8_empty_inputs_amended.2.2.2 0 "t" [ruleTriggered] (by decide)⟩
